import Mathlib

/-!
Verification of the face-recognition store of `api.py`
(class `FaceRecognitionSystem`, lines 60-200).

Shallow embedding choices:
* An embedding vector is a `List ℚ`.  `numpy` float arithmetic is modelled by
  exact rational arithmetic.
* `LA.norm(row - query)` is the Euclidean distance `Real.sqrt (d2 row query)`.
  The code only ever compares a distance with a nonnegative constant
  (`min_dist < 0.5`, `min_dist < 0.7`), which is equivalent to comparing the
  squared distance with the squared constant (`Real.sqrt_lt'`).  The model
  therefore carries squared distances (`d2`, `dists2`) and compares them with
  `dedupThreshold ^ 2` and `recogThreshold ^ 2`; the threshold theorems state
  the equivalence with the real-valued comparison explicitly.
* `base64_to_image` (external: PIL + cv2, returns `None` on any decode
  failure) and `face_app.get` (external: insightface, may raise) are
  collaborators: an input image is represented by what this pipeline yields
  for it, `Option DetectOutcome` (`none` = decode failure, `DetectOutcome.exn`
  = detector raised, `DetectOutcome.faces fs` = detected faces).
* `np.min` / `np.argmin` raise `ValueError` on an empty array, and
  `self.face_labels[min_index]` raises `IndexError` when out of range; these
  uncaught exceptions are modelled by an explicit crash outcome
  (`AddResult.exn`, respectively `none` results of `processFace`,
  `recognizeLoop`, `recognize_faces`).
* `save_database` rewrites both artifacts from memory; persistence is
  modelled by the list of database snapshots passed to `save_database`
  during the call (the save log), in order.
-/

namespace FaceAPI

/-- An embedding vector (`normed_embedding` rows); 512-dimensional in the
deployed system, arbitrary length in the model. -/
abbrev Emb := List ℚ

/-- Squared Euclidean distance between two embeddings: the square of
`numpy.linalg.norm(x - y)` for same-length vectors. -/
def d2 (x y : Emb) : ℚ := ((x.zip y).map (fun p => (p.1 - p.2) ^ 2)).sum

/-- A detected face as returned by `face_app.get`: bounding box
`bbox = [x1, y1, x2, y2]` and its `normed_embedding`. -/
structure Face where
  x1 : ℚ
  y1 : ℚ
  x2 : ℚ
  y2 : ℚ
  normed_embedding : Emb
deriving Repr, DecidableEq

/-- Detection-box area `(x.bbox[2]-x.bbox[0])*(x.bbox[3]-x.bbox[1])`
(line 104). -/
def Face.area (f : Face) : ℚ := (f.x2 - f.x1) * (f.y2 - f.y1)

/-- Result of running the external detector on a decoded image:
either `face_app.get` raised, or it returned a list of faces. -/
inductive DetectOutcome where
  | exn
  | faces (fs : List Face)
deriving Repr, DecidableEq

/-- The store: parallel artifacts `self.face_embeddings` (matrix, one row per
record, modelled as a list of rows) and `self.face_labels`. -/
structure FaceDB where
  face_embeddings : List Emb
  face_labels : List String
deriving Repr, DecidableEq

/-- The freshly initialized store of `load_database` when no files exist:
`np.empty((0, 512))` and `[]` (lines 72-75). -/
def emptyDB : FaceDB := ⟨[], []⟩

/-- Invariant from the spec: the two artifacts have the same number of
records. -/
def Consistent (db : FaceDB) : Prop :=
  db.face_embeddings.length = db.face_labels.length

instance (db : FaceDB) : Decidable (Consistent db) := by
  unfold Consistent; infer_instance

/-- Startup load (lines 66-75): if both persisted artifacts exist
(`disk = some db`) they are loaded as-is, otherwise the store starts empty. -/
def load_database (disk : Option FaceDB) : FaceDB := disk.getD emptyDB

/-- Value of `np.min` on a list: `none` models the `ValueError` numpy raises
on an empty array. -/
def listMin : List ℚ → Option ℚ
  | [] => none
  | x :: xs => some ((listMin xs).elim x (min x))

/-- Index of `np.argmin`: the first position holding the minimum value
(0 is never used: `np.argmin` raises on an empty array and every use below
is guarded by `listMin`). -/
def npArgmin (l : List ℚ) : Nat := (listMin l).elim 0 l.indexOf

/-- Per-row squared distances from every stored embedding to a query
embedding: the squares of `LA.norm(self.face_embeddings - embedding, axis=1)`
(lines 152 and 189). -/
def dists2 (db : FaceDB) (e : Emb) : List ℚ :=
  db.face_embeddings.map (fun r => d2 r e)

/-- Append one identity record: `np.vstack` of the new row plus
`face_labels.append` (lines 167-168). -/
def appendFace (db : FaceDB) (e : Emb) (comment : String) : FaceDB :=
  ⟨db.face_embeddings ++ [e], db.face_labels ++ [comment]⟩

/-- Self-heal step (lines 146-148): truncate both artifacts to the shorter
length. -/
def repairDB (db : FaceDB) : FaceDB :=
  let min_length := min db.face_labels.length db.face_embeddings.length
  ⟨db.face_embeddings.take min_length, db.face_labels.take min_length⟩

/-- Dedup threshold `0.5` of line 154. -/
def dedupThreshold : ℚ := 1 / 2

/-- Recognition threshold `0.7` of line 193. -/
def recogThreshold : ℚ := 7 / 10

def emptyCommentMsg : String := "Комментарий не может быть пустым"
def decodeFailMsg : String := "Невозможно декодировать изображение из base64"
def badImageMsg : String := "Некорректное изображение"
def noFacesMsg : String := "Лица не обнаружены"
def procErrorMsg : String := "Ошибка обработки изображения"
def emptyDbMsg : String := "База данных лиц пуста"
def dataMismatchMsg : String := "Ошибка: несоответствие данных в базе лиц"

/-- Duplicate-rejection message of line 159. -/
def dupMsg (name : String) : String :=
  "Человек уже существует в базе как \x27" ++ name ++ "\x27"

/-- Success message of line 170. -/
def okMsg (comment : String) : String :=
  "Ok! I\x27ll remember that it\x27s " ++ comment

/-- Label validation of line 130: `not comment or comment.strip() == ""`,
which holds exactly when every character of the comment is whitespace
(vacuously for the empty string). -/
def isBlank (s : String) : Bool := s.data.all Char.isWhitespace

/-- Dominant-face selection of line 104:
`sorted(faces, key=area, reverse=True)[0]`.  Python `sorted` is stable and
`reverse=True` keeps ties in detection order, so the head of the sorted list
is the earliest face of maximal area; the fold keeps the accumulator unless
a strictly larger area appears, which computes exactly that face. -/
def selectMain (f : Face) (fs : List Face) : Face :=
  fs.foldl (fun best g => if best.area < g.area then g else best) f

/-- Lines 94-108 (`detect_main_face`): errors for a `None` image, a detector
exception, or zero faces; otherwise the embedding of the dominant face. -/
def detect_main_face (image : Option DetectOutcome) : Except String Emb :=
  match image with
  | none => .error badImageMsg
  | some .exn => .error procErrorMsg
  | some (.faces []) => .error noFacesMsg
  | some (.faces (f :: fs)) => .ok (selectMain f fs).normed_embedding

/-- `MAX_FACES_FOR_CHECK` (line 36). -/
def MAX_FACES_FOR_CHECK : Nat := 8

/-- Lines 110-127 (`detect_all_faces`): same error cases, then at most the
first `MAX_FACES_FOR_CHECK` faces in detector order, mapped to their
embeddings. -/
def detect_all_faces (image : Option DetectOutcome) : Except String (List Emb) :=
  match image with
  | none => .error badImageMsg
  | some .exn => .error procErrorMsg
  | some (.faces []) => .error noFacesMsg
  | some (.faces (f :: fs)) =>
    let faces :=
      if (f :: fs).length > MAX_FACES_FOR_CHECK
      then (f :: fs).take MAX_FACES_FOR_CHECK
      else f :: fs
    .ok (faces.map Face.normed_embedding)

/-- Outcome of one `add_face` call: either the string the function returns,
or an uncaught exception (`np.min` on an empty distance array). -/
inductive AddResult where
  | msg (s : String)
  | exn
deriving Repr, DecidableEq

/-- Lines 152-173: the part of `add_face` after the repair step, on a store
`db1` whose label list was nonempty at entry.  `saves1` is the save log
accumulated so far.  Returns the outcome, the final in-memory store, and the
full save log of the call. -/
def dedupOrAppend (db1 : FaceDB) (saves1 : List FaceDB) (embedding : Emb)
    (comment : String) : AddResult × FaceDB × List FaceDB :=
  let dists := dists2 db1 embedding
  match listMin dists with
  | none => (.exn, db1, saves1)
  | some min_dist2 =>
    if min_dist2 < dedupThreshold ^ 2 then
      let duplicate_index := npArgmin dists
      if duplicate_index < db1.face_labels.length then
        (.msg (dupMsg (db1.face_labels.getD duplicate_index "")), db1, saves1)
      else
        (.msg dataMismatchMsg, db1, saves1)
    else
      let db2 := appendFace db1 embedding comment
      (.msg (okMsg comment), db2, saves1 ++ [db2])

/-- Lines 129-173 (`add_face`): label validation, image decoding, dominant
face detection, then — only when the label list is nonempty — the
length-mismatch repair and the dedup check, and finally the append. -/
def add_face (db : FaceDB) (image : Option DetectOutcome) (comment : String) :
    AddResult × FaceDB × List FaceDB :=
  if isBlank comment then
    (.msg emptyCommentMsg, db, [])
  else
    match image with
    | none => (.msg decodeFailMsg, db, [])
    | some det =>
      match detect_main_face (some det) with
      | .error err => (.msg err, db, [])
      | .ok embedding =>
        if 0 < db.face_labels.length then
          if db.face_labels.length ≠ db.face_embeddings.length then
            dedupOrAppend (repairDB db) [repairDB db] embedding comment
          else
            dedupOrAppend db [] embedding comment
        else
          let db2 := appendFace db embedding comment
          (.msg (okMsg comment), db2, [db2])

/-- One entry of the `results` list of `recognize_faces` (lines 195-198):
the matched label and the squared distance to it; the float the code also
stores is `confidence = max(0, 100 - Real.sqrt minD2 * 100)`. -/
structure RecogMatch where
  name : String
  minD2 : ℚ
deriving Repr, DecidableEq

/-- Lines 189-198: one iteration of the recognition loop.  `none` models an
uncaught exception (`np.argmin` on an empty array when the embedding matrix
has no rows, or `face_labels[min_index]` out of range); `some none` means the
face is silently dropped; `some (some r)` an emitted match. -/
def processFace (db : FaceDB) (e : Emb) : Option (Option RecogMatch) :=
  let dists := dists2 db e
  match listMin dists with
  | none => none
  | some _ =>
    let min_index := npArgmin dists
    let min_dist2 := dists.getD min_index 0
    if min_dist2 < recogThreshold ^ 2 then
      if min_index < db.face_labels.length then
        some (some ⟨db.face_labels.getD min_index "", min_dist2⟩)
      else none
    else
      some none

/-- The `for embedding in embeddings` loop of lines 187-198, in detection
order; a crash in any iteration aborts the whole call. -/
def recognizeLoop (db : FaceDB) : List Emb → Option (List RecogMatch)
  | [] => some []
  | e :: es =>
    match processFace db e with
    | none => none
    | some none => recognizeLoop db es
    | some (some r) => (recognizeLoop db es).map (fun rs => r :: rs)

/-- Lines 175-200 (`recognize_faces`): decode, detect, empty-store check,
then the per-face loop.  The result is `none` on an uncaught exception,
otherwise the `(results, error)` pair the function returns. -/
def recognize_faces (db : FaceDB) (image : Option DetectOutcome) :
    Option (List RecogMatch × Option String) :=
  match image with
  | none => some ([], some decodeFailMsg)
  | some det =>
    match detect_all_faces (some det) with
    | .error err => some ([], some err)
    | .ok embeddings =>
      if db.face_labels.length = 0 then
        some ([], some emptyDbMsg)
      else
        (recognizeLoop db embeddings).map (fun rs => (rs, none))

end FaceAPI

namespace FaceAPI

/-! Helper lemmas about the numeric primitives. -/

theorem d2_nonneg (x y : Emb) : 0 ≤ d2 x y := by
  unfold d2
  apply List.sum_nonneg
  intro q hq
  obtain ⟨p, _, rfl⟩ := List.mem_map.1 hq
  positivity

theorem listMin_mem {l : List ℚ} {m : ℚ} (h : listMin l = some m) : m ∈ l := by
  induction l generalizing m with
  | nil => simp [listMin] at h
  | cons x xs ih =>
    rw [listMin] at h
    cases hx : listMin xs with
    | none => rw [hx] at h; simp [Option.elim] at h; simp [h]
    | some m' =>
      rw [hx] at h
      simp only [Option.elim, Option.some.injEq] at h
      rcases min_cases x m' with ⟨he, _⟩ | ⟨he, _⟩
      · simp [← h, he]
      · right
        rw [← h, he]
        exact ih hx

theorem listMin_isSome {l : List ℚ} (h : l ≠ []) : ∃ m, listMin l = some m := by
  cases l with
  | nil => exact absurd rfl h
  | cons x xs => exact ⟨_, rfl⟩

theorem listMin_eq_none {l : List ℚ} (h : listMin l = none) : l = [] := by
  cases l with
  | nil => rfl
  | cons x xs => simp [listMin] at h

theorem npArgmin_eq_indexOf {l : List ℚ} {m : ℚ} (h : listMin l = some m) :
    npArgmin l = l.indexOf m := by
  unfold npArgmin
  rw [h]
  rfl

theorem npArgmin_lt_length {l : List ℚ} {m : ℚ} (h : listMin l = some m) :
    npArgmin l < l.length := by
  rw [npArgmin_eq_indexOf h]
  exact List.indexOf_lt_length.2 (listMin_mem h)

theorem getD_npArgmin {l : List ℚ} {m : ℚ} (h : listMin l = some m) :
    l.getD (npArgmin l) 0 = m := by
  have hlt : List.indexOf m l < l.length :=
    List.indexOf_lt_length.2 (listMin_mem h)
  rw [npArgmin_eq_indexOf h, List.getD_eq_getElem?_getD,
    List.getElem?_eq_getElem hlt, Option.getD_some, List.getElem_indexOf hlt]

theorem length_dists2 (db : FaceDB) (e : Emb) :
    (dists2 db e).length = db.face_embeddings.length := by
  simp [dists2]

theorem dists2_ne_nil {db : FaceDB} (h : db.face_embeddings ≠ []) (e : Emb) :
    dists2 db e ≠ [] := by
  simp [dists2, h]

theorem listMin_dists2_nonneg {db : FaceDB} {e : Emb} {m : ℚ}
    (h : listMin (dists2 db e) = some m) : 0 ≤ m := by
  have hm := listMin_mem h
  obtain ⟨r, _, rfl⟩ := List.mem_map.1 hm
  exact d2_nonneg r e

end FaceAPI

namespace FaceAPI

/-! Helper lemmas about dominant-face selection. -/

theorem selectMain_mem (f : Face) (fs : List Face) : selectMain f fs ∈ f :: fs := by
  induction fs generalizing f with
  | nil => simp [selectMain]
  | cons g gs ih =>
    rw [selectMain, List.foldl_cons]
    by_cases hlt : f.area < g.area
    · rw [if_pos hlt]
      have := ih g
      rw [selectMain] at this
      rcases List.mem_cons.1 this with h | h
      · simp [h]
      · simp [List.mem_cons.2 (Or.inr (List.mem_cons.2 (Or.inr h)))]
    · rw [if_neg hlt]
      have := ih f
      rw [selectMain] at this
      rcases List.mem_cons.1 this with h | h
      · simp [h]
      · simp [List.mem_cons.2 (Or.inr (List.mem_cons.2 (Or.inr h)))]

theorem selectMain_of_forall_lt {f : Face} {fs : List Face}
    (h : ∀ g ∈ fs, g.area < f.area) : selectMain f fs = f := by
  induction fs with
  | nil => rfl
  | cons g gs ih =>
    rw [selectMain, List.foldl_cons, if_neg (lt_asymm (h g (by simp)))]
    exact ih (fun g' hg' => h g' (List.mem_cons.2 (Or.inr hg')))

theorem selectMain_append {l₁ l₂ : List Face} {f h₁ : Face}
    (hmax₁ : ∀ g ∈ h₁ :: l₁, g.area < f.area)
    (hmax₂ : ∀ g ∈ l₂, g.area < f.area) :
    selectMain h₁ (l₁ ++ f :: l₂) = f := by
  rw [selectMain, List.foldl_append, List.foldl_cons]
  have hb : l₁.foldl (fun best g => if best.area < g.area then g else best) h₁
      ∈ h₁ :: l₁ := selectMain_mem h₁ l₁
  rw [if_pos (hmax₁ _ hb)]
  exact selectMain_of_forall_lt hmax₂

/-! Helper lemmas about the repair step. -/

theorem repairDB_labels (db : FaceDB) :
    (repairDB db).face_labels =
      db.face_labels.take (min db.face_labels.length db.face_embeddings.length) := rfl

theorem repairDB_embeddings (db : FaceDB) :
    (repairDB db).face_embeddings =
      db.face_embeddings.take (min db.face_labels.length db.face_embeddings.length) := rfl

theorem repairDB_labels_length (db : FaceDB) :
    (repairDB db).face_labels.length =
      min db.face_labels.length db.face_embeddings.length := by
  rw [repairDB_labels, List.length_take, Nat.min_eq_left (Nat.min_le_left _ _)]

theorem repairDB_embeddings_length (db : FaceDB) :
    (repairDB db).face_embeddings.length =
      min db.face_labels.length db.face_embeddings.length := by
  rw [repairDB_embeddings, List.length_take, Nat.min_eq_left (Nat.min_le_right _ _)]

theorem repairDB_consistent (db : FaceDB) : Consistent (repairDB db) := by
  unfold Consistent
  rw [repairDB_labels_length, repairDB_embeddings_length]

end FaceAPI

namespace FaceAPI

/-! Helper lemmas about the recognition loop. -/

theorem recognizeLoop_append (db : FaceDB) (xs ys : List Emb) :
    recognizeLoop db (xs ++ ys) =
      (recognizeLoop db xs).bind fun rx =>
        (recognizeLoop db ys).map fun ry => rx ++ ry := by
  induction xs with
  | nil =>
    simp only [List.nil_append, recognizeLoop, Option.bind_some]
    cases recognizeLoop db ys <;> simp
  | cons e es ih =>
    rw [List.cons_append, recognizeLoop, recognizeLoop]
    cases processFace db e with
    | none => rfl
    | some o =>
      cases o with
      | none => exact ih
      | some r =>
        show (recognizeLoop db (es ++ ys)).map (fun rs => r :: rs) = _
        rw [ih]
        cases recognizeLoop db es with
        | none => rfl
        | some ra =>
          cases recognizeLoop db ys with
          | none => rfl
          | some rb => simp

theorem processFace_of_consistent {db : FaceDB} (hcons : Consistent db)
    (hne : db.face_embeddings ≠ []) (e : Emb) :
    ∃ m, listMin (dists2 db e) = some m ∧
      processFace db e =
        (if m < recogThreshold ^ 2 then
          some (some ⟨db.face_labels.getD (npArgmin (dists2 db e)) "", m⟩)
        else some none) := by
  obtain ⟨m, hm⟩ := listMin_isSome (dists2_ne_nil hne e)
  refine ⟨m, hm, ?_⟩
  have hidx : npArgmin (dists2 db e) < db.face_labels.length := by
    have := npArgmin_lt_length hm
    rwa [length_dists2, hcons] at this
  rw [processFace]
  simp only [hm, getD_npArgmin hm]
  by_cases hlt : m < recogThreshold ^ 2
  · simp only [if_pos hlt, if_pos hidx]
  · simp only [if_neg hlt]

theorem processFace_ne_none {db : FaceDB} (hcons : Consistent db)
    (hne : db.face_embeddings ≠ []) (e : Emb) : processFace db e ≠ none := by
  obtain ⟨m, _, hp⟩ := processFace_of_consistent hcons hne e
  rw [hp]
  by_cases hlt : m < recogThreshold ^ 2
  · simp [hlt]
  · simp [hlt]

theorem recognizeLoop_ne_none {db : FaceDB} (hcons : Consistent db)
    (hne : db.face_embeddings ≠ []) (es : List Emb) :
    recognizeLoop db es ≠ none := by
  induction es with
  | nil => simp [recognizeLoop]
  | cons e es ih =>
    rw [recognizeLoop]
    cases hp : processFace db e with
    | none => exact absurd hp (processFace_ne_none hcons hne e)
    | some o =>
      cases o with
      | none => exact ih
      | some r =>
        cases hl : recognizeLoop db es with
        | none => exact absurd hl ih
        | some rs => simp

/-! Helper lemmas about the save-log bookkeeping of `dedupOrAppend`. -/

theorem dedupOrAppend_shift (db1 : FaceDB) (s1 : List FaceDB) (e : Emb)
    (c : String) :
    dedupOrAppend db1 s1 e c =
      ((dedupOrAppend db1 [] e c).1, (dedupOrAppend db1 [] e c).2.1,
        s1 ++ (dedupOrAppend db1 [] e c).2.2) := by
  rw [dedupOrAppend, dedupOrAppend]
  cases listMin (dists2 db1 e) with
  | none => simp
  | some m =>
    by_cases hlt : m < dedupThreshold ^ 2
    · simp only [if_pos hlt]
      by_cases hidx : npArgmin (dists2 db1 e) < db1.face_labels.length
      · simp [if_pos hidx]
      · simp [if_neg hidx]
    · simp [if_neg hlt]

/-! Helper lemmas distinguishing user-visible messages. -/

theorem data_append (a b : String) : (a ++ b).data = a.data ++ b.data := rfl

theorem okMsg_ne_dataMismatchMsg (c : String) : okMsg c ≠ dataMismatchMsg := by
  intro h
  have h2 : (okMsg c).data.head? = dataMismatchMsg.data.head? := by rw [h]
  rw [show (okMsg c).data =
      'O' :: ("k! I\x27ll remember that it\x27s ".data ++ c.data) from rfl,
    List.head?_cons] at h2
  exact absurd h2 (by decide)

theorem dupMsg_ne_dataMismatchMsg (s : String) : dupMsg s ≠ dataMismatchMsg := by
  intro h
  have h2 : (dupMsg s).data.head? = dataMismatchMsg.data.head? := by rw [h]
  rw [show (dupMsg s).data =
      'Ч' :: ("еловек уже существует в базе как \x27".data ++
        (s.data ++ "\x27".data)) from rfl,
    List.head?_cons] at h2
  exact absurd h2 (by decide)

end FaceAPI

namespace FaceAPI

/-- C5: enrollment uses the embedding of the face with the largest
detection-box area, wherever it sits in the detector-reported order: for any
split of the face list around a face `f` whose area strictly exceeds the area
of every other detected face, `detect_main_face` returns the embedding of
`f`. -/
theorem detect_main_face_dominant (l₁ l₂ : List Face) (f : Face)
    (hmax : ∀ g ∈ l₁ ++ l₂, g.area < f.area) :
    detect_main_face (some (.faces (l₁ ++ f :: l₂))) =
      .ok f.normed_embedding := by
  cases l₁ with
  | nil =>
    simp only [List.nil_append] at hmax ⊢
    rw [detect_main_face, selectMain_of_forall_lt hmax]
  | cons h₁ t₁ =>
    have hm₁ : ∀ g ∈ h₁ :: t₁, g.area < f.area := fun g hg =>
      hmax g (List.mem_append.2 (Or.inl hg))
    have hm₂ : ∀ g ∈ l₂, g.area < f.area := fun g hg =>
      hmax g (List.mem_append.2 (Or.inr hg))
    rw [List.cons_append, detect_main_face, selectMain_append hm₁ hm₂]

unseal Rat.add Rat.sub Rat.mul Rat.inv in
/-- Witness for C5 at the areas of the spec scenario: faces of box area 100
and 400, in both detection orders, both select the 400-area embedding. -/
theorem detect_main_face_dominant_witness :
    detect_main_face (some (.faces [⟨0,0,10,10,[1]⟩, ⟨0,0,20,20,[2]⟩])) =
      .ok [2] ∧
    detect_main_face (some (.faces [⟨0,0,20,20,[2]⟩, ⟨0,0,10,10,[1]⟩])) =
      .ok [2] := by
  constructor
  · exact detect_main_face_dominant [⟨0,0,10,10,[1]⟩] [] ⟨0,0,20,20,[2]⟩
      (by decide)
  · exact detect_main_face_dominant [] [⟨0,0,10,10,[1]⟩] ⟨0,0,20,20,[2]⟩
      (by decide)

/-- C7: recognizing against the store with zero records returns the empty
result list and the explicit empty-database message, for every nonempty
detected-face list; the call neither raises (the result is `some`) nor
depends on the faces (the right-hand side is a constant). -/
theorem recognize_empty_store (f : Face) (fs : List Face) :
    recognize_faces emptyDB (some (.faces (f :: fs))) =
      some ([], some emptyDbMsg) := rfl

/-- C8: a blank label is rejected with the validation message and an
undecodable image with the decode message, and in both cases the in-memory
store is returned unchanged and the save log is empty (nothing is
persisted). -/
theorem add_face_invalid_input_frame (db : FaceDB)
    (image : Option DetectOutcome) (c : String) :
    (isBlank c = true →
      add_face db image c = (.msg emptyCommentMsg, db, [])) ∧
    (isBlank c = false →
      add_face db none c = (.msg decodeFailMsg, db, [])) := by
  constructor
  · intro h
    rw [add_face.eq_def, if_pos h]
  · intro h
    rw [add_face.eq_def, if_neg (by simp [h])]

/-- Witness for C8: a whitespace-only label, and a failing decode with a
valid label, on a nonempty store. -/
theorem add_face_invalid_input_frame_witness :
    add_face ⟨[[0]], ["alice"]⟩ (some (.faces [⟨0,0,1,1,[0]⟩])) " \t " =
      (.msg emptyCommentMsg, ⟨[[0]], ["alice"]⟩, []) ∧
    add_face ⟨[[0]], ["alice"]⟩ none "bob" =
      (.msg decodeFailMsg, ⟨[[0]], ["alice"]⟩, []) := by
  constructor
  · exact (add_face_invalid_input_frame ⟨[[0]], ["alice"]⟩
      (some (.faces [⟨0,0,1,1,[0]⟩])) " \t ").1 (by decide)
  · exact (add_face_invalid_input_frame ⟨[[0]], ["alice"]⟩ none "bob").2
      (by decide)

/-- C10: when the in-memory label list is empty, `add_face` skips the
length-mismatch repair and the duplicate check entirely and appends
unconditionally: whatever the embedding matrix holds (even a row identical to
the new embedding), the call succeeds, appends the dominant-face embedding
and the label, and persists exactly the appended store (no repair save); and
when the embedding matrix was nonempty, the resulting store still violates
the length invariant, so the mismatch is neither detected nor repaired. -/
theorem add_face_empty_labels_skips_checks (db : FaceDB) (f : Face)
    (fs : List Face) (c : String)
    (hlab : db.face_labels = []) (hc : isBlank c = false) :
    add_face db (some (.faces (f :: fs))) c =
      (.msg (okMsg c),
        appendFace db (selectMain f fs).normed_embedding c,
        [appendFace db (selectMain f fs).normed_embedding c]) ∧
    (db.face_embeddings ≠ [] →
      ¬ Consistent (appendFace db (selectMain f fs).normed_embedding c)) := by
  constructor
  · rw [add_face.eq_def, if_neg (by simp [hc])]
    simp only [detect_main_face]
    rw [if_neg (by rw [hlab]; simp)]
  · intro hne hcons
    unfold Consistent appendFace at hcons
    rw [hlab] at hcons
    simp only [List.length_append, List.length_nil,
      List.length_singleton] at hcons
    exact hne (List.eq_nil_of_length_eq_zero (by omega))


theorem dedupOrAppend_fst_ne_mismatch {db1 : FaceDB} (hcons : Consistent db1)
    (s1 : List FaceDB) (e : Emb) (c : String) :
    (dedupOrAppend db1 s1 e c).1 ≠ .msg dataMismatchMsg := by
  rw [dedupOrAppend]
  cases hm : listMin (dists2 db1 e) with
  | none => simp
  | some m =>
    have hidx : npArgmin (dists2 db1 e) < db1.face_labels.length := by
      have := npArgmin_lt_length hm
      rwa [length_dists2, hcons] at this
    by_cases hlt : m < dedupThreshold ^ 2
    · simp only [if_pos hlt, if_pos hidx]
      intro h
      injection h with h'
      exact dupMsg_ne_dataMismatchMsg _ h'
    · simp only [if_neg hlt]
      intro h
      injection h with h'
      exact okMsg_ne_dataMismatchMsg _ h'

theorem dedupOrAppend_fst_ne_exn {db1 : FaceDB}
    (hne : db1.face_embeddings ≠ []) (s1 : List FaceDB) (e : Emb)
    (c : String) : (dedupOrAppend db1 s1 e c).1 ≠ .exn := by
  rw [dedupOrAppend]
  cases hm : listMin (dists2 db1 e) with
  | none => exact absurd (listMin_eq_none hm) (dists2_ne_nil hne e)
  | some m =>
    by_cases hlt : m < dedupThreshold ^ 2
    · simp only [if_pos hlt]
      by_cases hidx : npArgmin (dists2 db1 e) < db1.face_labels.length
      · simp [if_pos hidx]
      · simp [if_neg hidx]
    · simp [if_neg hlt]

/-- C9: the fallback branch of the duplicate check is dead code.  First, in
any state reached after the repair step (a consistent store, as the repair
establishes and the no-repair path presupposes), whenever the distance scan
produced a minimum, `np.argmin` is strictly below the label count, so the
guard of line 157 is true.  Second, as a consequence, no `add_face` call on
any store, image or comment can ever return the data-mismatch error message
of line 164. -/
theorem dedup_fallback_unreachable :
    (∀ (db1 : FaceDB) (e : Emb) (m : ℚ), Consistent db1 →
      listMin (dists2 db1 e) = some m →
      npArgmin (dists2 db1 e) < db1.face_labels.length) ∧
    (∀ (db : FaceDB) (image : Option DetectOutcome) (c : String),
      (add_face db image c).1 ≠ .msg dataMismatchMsg) := by
  constructor
  · intro db1 e m hcons hm
    have := npArgmin_lt_length hm
    rwa [length_dists2, hcons] at this
  · intro db image c
    rw [add_face.eq_def]
    by_cases hb : isBlank c
    · rw [if_pos hb]
      intro h
      injection h with h'
      exact absurd h' (by decide)
    · rw [if_neg hb]
      cases image with
      | none =>
        intro h
        injection h with h'
        exact absurd h' (by decide)
      | some det =>
        cases det with
        | exn =>
          simp only [detect_main_face]
          intro h
          injection h with h'
          exact absurd h' (by decide)
        | faces fs =>
          cases fs with
          | nil =>
            simp only [detect_main_face]
            intro h
            injection h with h'
            exact absurd h' (by decide)
          | cons f fs =>
            simp only [detect_main_face]
            by_cases h0 : 0 < db.face_labels.length
            · rw [if_pos h0]
              by_cases hd : db.face_labels.length ≠ db.face_embeddings.length
              · rw [if_pos hd]
                exact dedupOrAppend_fst_ne_mismatch (repairDB_consistent db) _ _ _
              · rw [if_neg hd]
                exact dedupOrAppend_fst_ne_mismatch (not_ne_iff.1 hd).symm _ _ _
            · rw [if_neg h0]
              intro h
              injection h with h'
              exact okMsg_ne_dataMismatchMsg c h'

unseal Rat.add Rat.sub Rat.mul Rat.inv in
/-- Witness for C9: on a consistent one-record store the scan minimum exists
and the argmin is below the label count, and a concrete call does not return
the mismatch message. -/
theorem dedup_fallback_unreachable_witness :
    npArgmin (dists2 ⟨[[0]], ["alice"]⟩ [0]) <
      (FaceDB.mk [[0]] ["alice"]).face_labels.length ∧
    (add_face ⟨[[0]], ["alice"]⟩ none "bob").1 ≠ .msg dataMismatchMsg := by
  constructor
  · exact dedup_fallback_unreachable.1 ⟨[[0]], ["alice"]⟩ [0] 0
      (by decide) (by decide)
  · exact dedup_fallback_unreachable.2 ⟨[[0]], ["alice"]⟩ none "bob"

/-- C3: on a nonempty consistent store, with a valid comment and a detected
dominant face, let `m` be the minimum of the squared distances to the stored
rows.  The scanned minimum distance is below the dedup threshold `0.5`
exactly when `m < dedupThreshold ^ 2` (first conjunct); in that case the
enrollment is rejected with the message naming the stored label at the
argmin index and the store is neither changed nor saved; when the minimum
distance is at least `0.5` (including exactly `0.5`), the record is appended
and the appended store is persisted. -/
theorem add_face_dedup_threshold (db : FaceDB) (f : Face) (fs : List Face)
    (c : String) (m : ℚ)
    (hcons : Consistent db)
    (h0 : 0 < db.face_labels.length)
    (hc : isBlank c = false)
    (hm : listMin (dists2 db (selectMain f fs).normed_embedding) = some m) :
    (Real.sqrt (m : ℝ) < 1 / 2 ↔ m < dedupThreshold ^ 2) ∧
    (m < dedupThreshold ^ 2 →
      add_face db (some (.faces (f :: fs))) c =
        (.msg (dupMsg (db.face_labels.getD
            (npArgmin (dists2 db (selectMain f fs).normed_embedding)) "")),
          db, [])) ∧
    (dedupThreshold ^ 2 ≤ m →
      add_face db (some (.faces (f :: fs))) c =
        (.msg (okMsg c),
          appendFace db (selectMain f fs).normed_embedding c,
          [appendFace db (selectMain f fs).normed_embedding c])) := by
  have hmain : add_face db (some (.faces (f :: fs))) c =
      dedupOrAppend db [] (selectMain f fs).normed_embedding c := by
    rw [add_face.eq_def, if_neg (by simp [hc])]
    simp only [detect_main_face]
    rw [if_pos h0, if_neg (not_ne_iff.2 hcons.symm)]
  have hidx : npArgmin (dists2 db (selectMain f fs).normed_embedding) <
      db.face_labels.length := by
    have := npArgmin_lt_length hm
    rwa [length_dists2, hcons] at this
  refine ⟨?_, ?_, ?_⟩
  · rw [Real.sqrt_lt' (by norm_num : (0:ℝ) < 1 / 2),
      show ((1:ℝ) / 2) ^ 2 = ((dedupThreshold ^ 2 : ℚ) : ℝ) from by
        norm_num [dedupThreshold]]
    exact Rat.cast_lt
  · intro hlt
    rw [hmain, dedupOrAppend]
    simp only [hm, if_pos hlt, if_pos hidx]
  · intro hge
    rw [hmain, dedupOrAppend]
    simp only [hm, if_neg (not_lt.2 hge), List.nil_append]

unseal Rat.add Rat.sub Rat.mul Rat.inv in
/-- Witness for C3: a second enrollment of an identical embedding (distance
0) is rejected naming the stored label, and an enrollment at distance
exactly 0.5 (squared distance 1/4) is not rejected but appended. -/
theorem add_face_dedup_threshold_witness :
    add_face ⟨[[0]], ["alice"]⟩ (some (.faces [⟨0,0,1,1,[0]⟩])) "bob" =
      (.msg (dupMsg "alice"), ⟨[[0]], ["alice"]⟩, []) ∧
    add_face ⟨[[0]], ["alice"]⟩ (some (.faces [⟨0,0,1,1,[1/2]⟩])) "bob" =
      (.msg (okMsg "bob"), ⟨[[0], [1/2]], ["alice", "bob"]⟩,
        [⟨[[0], [1/2]], ["alice", "bob"]⟩]) := by
  constructor
  · have h := (add_face_dedup_threshold ⟨[[0]], ["alice"]⟩ ⟨0,0,1,1,[0]⟩ []
      "bob" 0 (by decide) (by decide) (by decide) (by decide)).2.1 (by decide)
    rw [h]
    decide
  · have h := (add_face_dedup_threshold ⟨[[0]], ["alice"]⟩ ⟨0,0,1,1,[1/2]⟩ []
      "bob" (1/4) (by decide) (by decide) (by decide) (by decide)).2.2
      (by decide)
    rw [h]
    decide

/-- C4: for a detected face processed by the recognition loop against a
consistent store whose distance scan yields the squared minimum `m`, the
scanned minimum distance is below the recognition threshold `0.7` exactly
when `m < recogThreshold ^ 2` (first conjunct).  Below the threshold a match
is emitted carrying the label at the argmin index and the squared distance
`m`, and the confidence the code computes, `max(0, 100 - dist*100)`, never
clamps there (it equals `100 - dist*100`, which at distance 0.69 is 31, see
the witness); at or above the threshold (including exactly 0.7) the face
yields no result. -/
theorem recognize_threshold_confidence (db : FaceDB) (e : Emb) (m : ℚ)
    (hcons : Consistent db)
    (hm : listMin (dists2 db e) = some m) :
    (Real.sqrt (m : ℝ) < 7 / 10 ↔ m < recogThreshold ^ 2) ∧
    (m < recogThreshold ^ 2 →
      processFace db e =
        some (some ⟨db.face_labels.getD (npArgmin (dists2 db e)) "", m⟩) ∧
      max (0 : ℝ) (100 - Real.sqrt (m : ℝ) * 100) =
        100 - Real.sqrt (m : ℝ) * 100) ∧
    (recogThreshold ^ 2 ≤ m → processFace db e = some none) := by
  have hne : db.face_embeddings ≠ [] := by
    intro h
    rw [dists2, h] at hm
    simp [listMin] at hm
  obtain ⟨m', hm', hp⟩ := processFace_of_consistent hcons hne e
  have hmeq : m' = m := by
    rw [hm] at hm'
    exact (Option.some.inj hm').symm
  subst hmeq
  have hbridge : Real.sqrt (m' : ℝ) < 7 / 10 ↔ m' < recogThreshold ^ 2 := by
    rw [Real.sqrt_lt' (by norm_num : (0:ℝ) < 7 / 10),
      show ((7:ℝ) / 10) ^ 2 = ((recogThreshold ^ 2 : ℚ) : ℝ) from by
        norm_num [recogThreshold]]
    exact Rat.cast_lt
  refine ⟨hbridge, ?_, ?_⟩
  · intro hlt
    refine ⟨by rw [hp, if_pos hlt], ?_⟩
    have hs : Real.sqrt (m' : ℝ) < 7 / 10 := hbridge.2 hlt
    exact max_eq_right (by nlinarith [hs])
  · intro hge
    rw [hp, if_neg (not_lt.2 hge)]

unseal Rat.add Rat.sub Rat.mul Rat.inv in
/-- Witness for C4: a face at distance 0.69 (squared distance 4761/10000)
from the single stored embedding is emitted as a match for the stored label,
and its confidence evaluates to exactly 31. -/
theorem recognize_threshold_confidence_witness :
    processFace ⟨[[0]], ["alice"]⟩ [69/100] =
      some (some ⟨"alice", 4761/10000⟩) ∧
    max (0 : ℝ) (100 - Real.sqrt ((4761/10000 : ℚ) : ℝ) * 100) = 31 := by
  have h := (recognize_threshold_confidence ⟨[[0]], ["alice"]⟩ [69/100]
    (4761/10000) (by decide) (by decide)).2.1 (by decide)
  constructor
  · rw [h.1]
    decide
  · have hs : Real.sqrt ((4761/10000 : ℚ) : ℝ) = 69 / 100 := by
      rw [show ((4761/10000 : ℚ) : ℝ) = ((69:ℝ) / 100) ^ 2 from by norm_num]
      exact Real.sqrt_sq (by norm_num)
    rw [hs]
    norm_num

theorem dedupOrAppend_consistent_parts {db1 : FaceDB} (hcons : Consistent db1)
    (hne : db1.face_embeddings ≠ []) (e : Emb) (c : String) :
    (dedupOrAppend db1 [] e c).1 ≠ .exn ∧
    Consistent (dedupOrAppend db1 [] e c).2.1 ∧
    ∀ s ∈ (dedupOrAppend db1 [] e c).2.2, Consistent s := by
  rw [dedupOrAppend]
  cases hm : listMin (dists2 db1 e) with
  | none => exact absurd (listMin_eq_none hm) (dists2_ne_nil hne e)
  | some m =>
    by_cases hlt : m < dedupThreshold ^ 2
    · have hidx : npArgmin (dists2 db1 e) < db1.face_labels.length := by
        have := npArgmin_lt_length hm
        rwa [length_dists2, hcons] at this
      simp only [if_pos hlt, if_pos hidx]
      exact ⟨by simp, hcons, by simp⟩
    · simp only [if_neg hlt, List.nil_append]
      have hc' : db1.face_embeddings.length = db1.face_labels.length := hcons
      refine ⟨by simp, ?_, ?_⟩
      · simp [Consistent, appendFace, hc']
      · intro s hs
        simp only [List.mem_singleton] at hs
        subst hs
        simp [Consistent, appendFace, hc']

/-- C2: the length invariant `len(face_embeddings) == len(face_labels)` is
preserved by every completed store operation, from every starting state that
satisfies it: a startup load of a consistent persisted pair yields a
consistent store; every `add_face` call (rejecting, erroring or succeeding)
finishes without an uncaught exception, leaves a consistent in-memory store,
and every snapshot it persists is consistent; and `recognize_faces`, which
never mutates the store, completes without an uncaught exception. -/
theorem store_invariant_preservation :
    (∀ disk : Option FaceDB, (∀ d ∈ disk, Consistent d) →
      Consistent (load_database disk)) ∧
    (∀ (db : FaceDB) (image : Option DetectOutcome) (c : String),
      Consistent db →
        (add_face db image c).1 ≠ .exn ∧
        Consistent (add_face db image c).2.1 ∧
        ∀ s ∈ (add_face db image c).2.2, Consistent s) ∧
    (∀ (db : FaceDB) (image : Option DetectOutcome), Consistent db →
      recognize_faces db image ≠ none) := by
  refine ⟨?_, ?_, ?_⟩
  · intro disk h
    cases disk with
    | none => exact rfl
    | some d => exact h d rfl
  · intro db image c hcons
    rw [add_face.eq_def]
    by_cases hb : isBlank c
    · rw [if_pos hb]
      exact ⟨by simp, hcons, by simp⟩
    · rw [if_neg hb]
      cases image with
      | none => exact ⟨by simp, hcons, by simp⟩
      | some det =>
        cases det with
        | exn =>
          simp only [detect_main_face]
          exact ⟨by simp, hcons, by simp⟩
        | faces fs =>
          cases fs with
          | nil =>
            simp only [detect_main_face]
            exact ⟨by simp, hcons, by simp⟩
          | cons f fs =>
            simp only [detect_main_face]
            by_cases h0 : 0 < db.face_labels.length
            · rw [if_pos h0, if_neg (not_ne_iff.2 hcons.symm)]
              have hne : db.face_embeddings ≠ [] := by
                apply List.ne_nil_of_length_pos
                rw [hcons]
                exact h0
              exact dedupOrAppend_consistent_parts hcons hne _ c
            · rw [if_neg h0]
              have hc' : db.face_embeddings.length = db.face_labels.length :=
                hcons
              refine ⟨by simp, ?_, ?_⟩
              · simp [Consistent, appendFace, hc']
              · intro s hs
                simp only [List.mem_singleton] at hs
                subst hs
                simp [Consistent, appendFace, hc']
  · intro db image hcons
    rw [recognize_faces.eq_def]
    cases image with
    | none => simp
    | some det =>
      cases hdet : detect_all_faces (some det) with
      | error err => simp [hdet]
      | ok embs =>
        simp only [hdet]
        by_cases h0 : db.face_labels.length = 0
        · rw [if_pos h0]
          simp
        · rw [if_neg h0]
          have hne : db.face_embeddings ≠ [] := by
            apply List.ne_nil_of_length_pos
            rw [hcons]
            omega
          cases hl : recognizeLoop db embs with
          | none => exact absurd hl (recognizeLoop_ne_none hcons hne embs)
          | some rs => simp [hl]

unseal Rat.add Rat.sub Rat.mul Rat.inv in
/-- Witness for C2: loading a consistent one-record pair yields a consistent
store, and a successful enrollment on it neither raises nor breaks the
invariant. -/
theorem store_invariant_preservation_witness :
    Consistent (load_database (some ⟨[[0]], ["alice"]⟩)) ∧
    (add_face ⟨[[0]], ["alice"]⟩ (some (.faces [⟨0,0,1,1,[3]⟩])) "bob").1 ≠
      .exn ∧
    Consistent
      (add_face ⟨[[0]], ["alice"]⟩ (some (.faces [⟨0,0,1,1,[3]⟩])) "bob").2.1 := by
  obtain ⟨hl, ha, _⟩ := store_invariant_preservation
  refine ⟨hl (some ⟨[[0]], ["alice"]⟩) ?_,
    (ha ⟨[[0]], ["alice"]⟩ (some (.faces [⟨0,0,1,1,[3]⟩])) "bob" (by decide)).1,
    (ha ⟨[[0]], ["alice"]⟩ (some (.faces [⟨0,0,1,1,[3]⟩])) "bob" (by decide)).2.1⟩
  intro d hd
  cases hd
  decide

theorem detect_all_faces_take (f : Face) (fs : List Face) :
    detect_all_faces (some (.faces (f :: fs))) =
      .ok (((f :: fs).take MAX_FACES_FOR_CHECK).map Face.normed_embedding) := by
  rw [detect_all_faces]
  by_cases h : (f :: fs).length > MAX_FACES_FOR_CHECK
  · simp only [if_pos h]
  · simp only [if_neg h]
    rw [List.take_of_length_le (le_of_not_lt h)]

/-- C6: the result list of `recognize_faces` is built from at most the first
8 detected faces in detector order (cap conjunct: the call on any nonempty
face list equals the call on its first 8 faces, so later faces are never
evaluated); the per-face loop processes embeddings in order, omitting a
non-matching face without any placeholder while preserving the relative
order of the others (omission and order conjuncts), and the same match may
be emitted once per face, so duplicate labels appear when two faces match
the same record (duplicate conjunct). -/
theorem recognize_cap_order_duplicates :
    (∀ (db : FaceDB) (f : Face) (fs : List Face),
      recognize_faces db (some (.faces (f :: fs))) =
        recognize_faces db
          (some (.faces ((f :: fs).take MAX_FACES_FOR_CHECK)))) ∧
    (∀ (db : FaceDB) (a b : List Emb) (e : Emb),
      processFace db e = some none →
      recognizeLoop db (a ++ e :: b) = recognizeLoop db (a ++ b)) ∧
    (∀ (db : FaceDB) (a b : List Emb) (e : Emb) (r : RecogMatch),
      processFace db e = some (some r) →
      recognizeLoop db (a ++ e :: b) =
        (recognizeLoop db a).bind fun ra =>
          (recognizeLoop db b).map fun rb => ra ++ r :: rb) ∧
    (∀ (db : FaceDB) (e : Emb) (r : RecogMatch),
      processFace db e = some (some r) →
      recognizeLoop db [e, e] = some [r, r]) := by
  refine ⟨?_, ?_, ?_, ?_⟩
  · intro db f fs
    have h2 : (f :: fs.take 7).take MAX_FACES_FOR_CHECK = f :: fs.take 7 := by
      show f :: ((fs.take 7).take 7) = f :: fs.take 7
      rw [List.take_take, Nat.min_self]
    have h1 : detect_all_faces (some (.faces (f :: fs))) =
        detect_all_faces (some (.faces ((f :: fs).take MAX_FACES_FOR_CHECK))) := by
      rw [detect_all_faces_take f fs,
        show (f :: fs).take MAX_FACES_FOR_CHECK = f :: fs.take 7 from rfl,
        detect_all_faces_take f (fs.take 7), h2]
    rw [recognize_faces,
      show (f :: fs).take MAX_FACES_FOR_CHECK = f :: fs.take 7 from rfl,
      recognize_faces]
    rw [show (f :: fs).take MAX_FACES_FOR_CHECK = f :: fs.take 7 from rfl] at h1
    rw [h1]
  · intro db a b e hp
    have he : recognizeLoop db (e :: b) = recognizeLoop db b := by
      rw [recognizeLoop, hp]
    rw [recognizeLoop_append, he, ← recognizeLoop_append]
  · intro db a b e r hp
    have he : recognizeLoop db (e :: b) =
        (recognizeLoop db b).map fun rb => r :: rb := by
      rw [recognizeLoop, hp]
    rw [recognizeLoop_append, he]
    cases recognizeLoop db a with
    | none => rfl
    | some ra =>
      cases recognizeLoop db b with
      | none => rfl
      | some rb => simp
  · intro db e r hp
    have h1 : recognizeLoop db [e] = some [r] := by
      rw [recognizeLoop, hp, recognizeLoop]
      rfl
    have h2 : recognizeLoop db [e, e] =
        (recognizeLoop db [e]).map fun rs => r :: rs := by
      rw [recognizeLoop, hp]
    rw [h2, h1]
    rfl

unseal Rat.add Rat.sub Rat.mul Rat.inv in
/-- Witness for C6: with one stored record, a call on nine identical faces
equals the call on the first eight; and the loop on faces at distances
0, 2, 0 drops the middle face and emits the same label twice, in detection
order. -/
theorem recognize_cap_order_duplicates_witness :
    recognize_faces ⟨[[0]], ["alice"]⟩
        (some (.faces (List.replicate 9 ⟨0,0,1,1,[0]⟩))) =
      recognize_faces ⟨[[0]], ["alice"]⟩
        (some (.faces ((List.replicate 9
          ⟨0,0,1,1,[0]⟩).take MAX_FACES_FOR_CHECK))) ∧
    recognizeLoop ⟨[[0]], ["alice"]⟩ [[0], [2], [0]] =
      some [⟨"alice", 0⟩, ⟨"alice", 0⟩] := by
  obtain ⟨hcap, homit, _, hdup⟩ := recognize_cap_order_duplicates
  constructor
  · exact hcap ⟨[[0]], ["alice"]⟩ ⟨0,0,1,1,[0]⟩
      (List.replicate 8 ⟨0,0,1,1,[0]⟩)
  · have h1 := homit ⟨[[0]], ["alice"]⟩ [[0]] [[0]] [2] (by decide)
    have h2 := hdup ⟨[[0]], ["alice"]⟩ [0] ⟨"alice", 0⟩ (by decide)
    calc recognizeLoop ⟨[[0]], ["alice"]⟩ [[0], [2], [0]]
        = recognizeLoop ⟨[[0]], ["alice"]⟩ [[0], [0]] := h1
      _ = some [⟨"alice", 0⟩, ⟨"alice", 0⟩] := h2

unseal Rat.add Rat.sub Rat.mul Rat.inv in
/-- Counterexample to C1 as stated: on the mismatched store with one label
and zero embedding rows, an enroll call with a valid label and one detected
face does truncate both artifacts to length 0 and persist that pair, but it
then aborts with an uncaught exception (`np.min` of the empty distance
array) instead of proceeding with the enrollment. -/
theorem add_face_mismatch_crash :
    add_face ⟨[], ["a"]⟩ (some (.faces [⟨0,0,1,1,[0]⟩])) "bob" =
      (.exn, ⟨[], []⟩, [⟨[], []⟩]) := by decide

/-- C1 (amended): for every store whose label count and embedding-row count
are both nonzero and differ, an enroll call with a valid label and at least
one detected face first truncates both artifacts to the shorter length
(`repairDB`), persists the truncated pair as the first save of the call, and
then proceeds exactly as an enrollment on the repaired store would (same
outcome, same final store, same further saves); such a call never aborts.
When the embedding matrix is empty instead, the call truncates, persists and
then raises (see the counterexample), and when the label list is empty the
mismatch is not even detected (see C10). -/
theorem add_face_repair_then_proceed (db : FaceDB) (f : Face)
    (fs : List Face) (c : String)
    (hc : isBlank c = false)
    (hlen : db.face_labels.length ≠ db.face_embeddings.length)
    (hlab : db.face_labels ≠ [])
    (hemb : db.face_embeddings ≠ []) :
    add_face db (some (.faces (f :: fs))) c =
      ((add_face (repairDB db) (some (.faces (f :: fs))) c).1,
        (add_face (repairDB db) (some (.faces (f :: fs))) c).2.1,
        repairDB db ::
          (add_face (repairDB db) (some (.faces (f :: fs))) c).2.2) ∧
    (add_face db (some (.faces (f :: fs))) c).1 ≠ .exn := by
  have hpos : 0 < db.face_labels.length := List.length_pos.2 hlab
  have hpos2 : 0 < db.face_embeddings.length := List.length_pos.2 hemb
  have hrep_lab : 0 < (repairDB db).face_labels.length := by
    rw [repairDB_labels_length]
    exact lt_min hpos hpos2
  have hrep_emb : (repairDB db).face_embeddings ≠ [] := by
    apply List.ne_nil_of_length_pos
    rw [repairDB_embeddings_length]
    exact lt_min hpos hpos2
  have hL : add_face db (some (.faces (f :: fs))) c =
      dedupOrAppend (repairDB db) [repairDB db]
        (selectMain f fs).normed_embedding c := by
    rw [add_face.eq_def, if_neg (by simp [hc])]
    simp only [detect_main_face]
    rw [if_pos hpos, if_pos hlen]
  have hR : add_face (repairDB db) (some (.faces (f :: fs))) c =
      dedupOrAppend (repairDB db) []
        (selectMain f fs).normed_embedding c := by
    rw [add_face.eq_def, if_neg (by simp [hc])]
    simp only [detect_main_face]
    rw [if_pos hrep_lab, if_neg (not_ne_iff.2 (repairDB_consistent db).symm)]
  constructor
  · rw [hL, hR, dedupOrAppend_shift]
    rfl
  · rw [hL]
    exact dedupOrAppend_fst_ne_exn hrep_emb _ _ _

unseal Rat.add Rat.sub Rat.mul Rat.inv in
/-- Witness for amended C1: a store with one label and two embedding rows
(both counts nonzero, unequal) is repaired, the truncated pair heads the
save log, and the call proceeds as on the repaired store without aborting. -/
theorem add_face_repair_then_proceed_witness :
    add_face ⟨[[0],[1]], ["alice"]⟩ (some (.faces [⟨0,0,1,1,[0]⟩])) "bob" =
      ((add_face (repairDB ⟨[[0],[1]], ["alice"]⟩)
          (some (.faces [⟨0,0,1,1,[0]⟩])) "bob").1,
        (add_face (repairDB ⟨[[0],[1]], ["alice"]⟩)
          (some (.faces [⟨0,0,1,1,[0]⟩])) "bob").2.1,
        repairDB ⟨[[0],[1]], ["alice"]⟩ ::
          (add_face (repairDB ⟨[[0],[1]], ["alice"]⟩)
            (some (.faces [⟨0,0,1,1,[0]⟩])) "bob").2.2) ∧
    (add_face ⟨[[0],[1]], ["alice"]⟩
      (some (.faces [⟨0,0,1,1,[0]⟩])) "bob").1 ≠ .exn :=
  add_face_repair_then_proceed ⟨[[0],[1]], ["alice"]⟩ ⟨0,0,1,1,[0]⟩ [] "bob"
    (by decide) (by decide) (by decide) (by decide)

unseal Rat.add Rat.sub Rat.mul Rat.inv in
/-- Witness for C10: on a store with an empty label list but a nonempty
embedding matrix already holding a row identical to the new embedding, the
call neither repairs nor rejects: it appends both, and the resulting store
is still inconsistent. -/
theorem add_face_empty_labels_skips_checks_witness :
    add_face ⟨[[0]], []⟩ (some (.faces [⟨0,0,1,1,[0]⟩])) "bob" =
      (.msg (okMsg "bob"), ⟨[[0],[0]], ["bob"]⟩, [⟨[[0],[0]], ["bob"]⟩]) ∧
    ¬ Consistent (FaceDB.mk [[0],[0]] ["bob"]) := by
  have h := add_face_empty_labels_skips_checks ⟨[[0]], []⟩ ⟨0,0,1,1,[0]⟩ []
    "bob" rfl (by decide)
  exact ⟨h.1, h.2 (by decide)⟩

end FaceAPI
